import Mathlib

/-!
Verification development for the Durable Streams client session engine
(`packages/client/src/utils.ts`, `StreamResponseImpl`).

The TypeScript source is shallowly embedded below:
* payload byte sequences are modelled as the strings they decode to
  (`TextDecoder` is the identity in this model);
* `JSON.parse` is embedded as a fuel-indexed recursive-descent parser
  `jsonParse` over an inductive `Json` type (number literals are kept as
  their lexemes);
* the session object becomes an explicit `Session` record and its private
  methods become pure state transformers;
* promises, the `ReadableStream` pull protocol and the injected
  `fetchNext` / `startSSE` capabilities become explicit state
  (`PromiseState`, `ReaderState`, oracle functions `Nat → FetchOutcome`).
-/

/-- JSON whitespace accepted by `JSON.parse` (space, tab, newline, carriage
return). -/
def isJsonWs (c : Char) : Bool :=
  c = ' ' || c = '\t' || c = '\n' || c = '\r'

/-- Whitespace removed by JavaScript `String.prototype.trim` (modelled
subset: the JSON whitespace characters plus form feed and vertical tab). -/
def isJsTrimWs (c : Char) : Bool :=
  isJsonWs c || c = '\x0c' || c = '\x0b'

/-- JSON values.  Number literals are kept as lexemes rather than converted
to floating point, which is irrelevant to the decoding policy. -/
inductive Json where
  | null : Json
  | bool (b : Bool) : Json
  | num (lit : String) : Json
  | str (s : String) : Json
  | arr (elems : List Json) : Json
  | obj (members : List (String × Json)) : Json
deriving Repr

/-- Drop leading JSON whitespace. -/
def skipWs : List Char → List Char
  | [] => []
  | c :: cs => if isJsonWs c then skipWs cs else c :: cs

/-- Parse the body of a JSON string literal (the opening quote already
consumed), handling escape sequences as `JSON.parse` does. -/
def parseStringBody : List Char → String → Option (String × List Char)
  | [], _ => none
  | '"' :: rest, acc => some (acc, rest)
  | '\\' :: '"' :: rest, acc => parseStringBody rest (acc.push '"')
  | '\\' :: '\\' :: rest, acc => parseStringBody rest (acc.push '\\')
  | '\\' :: '/' :: rest, acc => parseStringBody rest (acc.push '/')
  | '\\' :: 'b' :: rest, acc => parseStringBody rest (acc.push '\x08')
  | '\\' :: 'f' :: rest, acc => parseStringBody rest (acc.push '\x0c')
  | '\\' :: 'n' :: rest, acc => parseStringBody rest (acc.push '\n')
  | '\\' :: 'r' :: rest, acc => parseStringBody rest (acc.push '\r')
  | '\\' :: 't' :: rest, acc => parseStringBody rest (acc.push '\t')
  | '\\' :: 'u' :: a :: b :: c :: d :: rest, acc =>
    let isHex : Char → Bool := fun ch =>
      ch.isDigit || ('a' ≤ ch && ch ≤ 'f') || ('A' ≤ ch && ch ≤ 'F')
    if isHex a && isHex b && isHex c && isHex d then
      let hexVal : Char → Nat := fun ch =>
        if ch.isDigit then ch.toNat - '0'.toNat
        else if 'a' ≤ ch ∧ ch ≤ 'f' then ch.toNat - 'a'.toNat + 10
        else ch.toNat - 'A'.toNat + 10
      let n := ((hexVal a * 16 + hexVal b) * 16 + hexVal c) * 16 + hexVal d
      parseStringBody rest (acc.push (Char.ofNat n))
    else none
  | '\\' :: _, _ => none
  | c :: rest, acc =>
    if c.toNat < 0x20 then none else parseStringBody rest (acc.push c)

/-- Take a maximal run of decimal digits. -/
def takeDigits : List Char → (List Char × List Char)
  | [] => ([], [])
  | c :: cs =>
    if c.isDigit then
      let (ds, rest) := takeDigits cs
      (c :: ds, rest)
    else ([], c :: cs)

/-- Parse a JSON number literal (sign, integer part without leading zeros,
optional fraction and exponent), returning its lexeme. -/
def parseNumber (cs : List Char) : Option (Json × List Char) :=
  let (sign, cs₁) :=
    match cs with
    | '-' :: rest => (("-" : String), rest)
    | _ => (("" : String), cs)
  match cs₁ with
  | [] => none
  | c :: _ =>
    if !c.isDigit then none
    else
      let (intDs, cs₂) := takeDigits cs₁
      -- JSON forbids leading zeros in multi-digit integer parts
      if intDs.length > 1 && intDs.headD '0' = '0' then none
      else
        let (fracPart, cs₃) :=
          match cs₂ with
          | '.' :: rest =>
            let (ds, r) := takeDigits rest
            if ds.isEmpty then (none, cs₂) else (some (String.mk ('.' :: ds)), r)
          | _ => (none, cs₂)
        match fracPart, cs₂ with
        | none, '.' :: _ => none
        | _, _ =>
          let (expPart, cs₄) :=
            match cs₃ with
            | 'e' :: '+' :: rest =>
              let (ds, r) := takeDigits rest
              if ds.isEmpty then (none, cs₃) else (some (String.mk ('e' :: '+' :: ds)), r)
            | 'e' :: '-' :: rest =>
              let (ds, r) := takeDigits rest
              if ds.isEmpty then (none, cs₃) else (some (String.mk ('e' :: '-' :: ds)), r)
            | 'e' :: rest =>
              let (ds, r) := takeDigits rest
              if ds.isEmpty then (none, cs₃) else (some (String.mk ('e' :: ds)), r)
            | 'E' :: '+' :: rest =>
              let (ds, r) := takeDigits rest
              if ds.isEmpty then (none, cs₃) else (some (String.mk ('E' :: '+' :: ds)), r)
            | 'E' :: '-' :: rest =>
              let (ds, r) := takeDigits rest
              if ds.isEmpty then (none, cs₃) else (some (String.mk ('E' :: '-' :: ds)), r)
            | 'E' :: rest =>
              let (ds, r) := takeDigits rest
              if ds.isEmpty then (none, cs₃) else (some (String.mk ('E' :: ds)), r)
            | _ => (none, cs₃)
          match expPart, cs₃ with
          | none, 'e' :: _ => none
          | none, 'E' :: _ => none
          | _, _ =>
            some (Json.num (sign ++ String.mk intDs ++ (fracPart.getD "") ++ (expPart.getD "")), cs₄)

mutual

/-- Fuel-indexed recursive-descent parser for one JSON value. -/
def parseValue : Nat → List Char → Option (Json × List Char)
  | 0, _ => none
  | Nat.succ fuel, cs =>
    match skipWs cs with
    | [] => none
    | c :: rest =>
      if c = 'n' then
        match rest with
        | 'u' :: 'l' :: 'l' :: r => some (Json.null, r)
        | _ => none
      else if c = 't' then
        match rest with
        | 'r' :: 'u' :: 'e' :: r => some (Json.bool true, r)
        | _ => none
      else if c = 'f' then
        match rest with
        | 'a' :: 'l' :: 's' :: 'e' :: r => some (Json.bool false, r)
        | _ => none
      else if c = '"' then
        match parseStringBody rest "" with
        | some (s, r) => some (Json.str s, r)
        | none => none
      else if c = '[' then
        match skipWs rest with
        | ']' :: r => some (Json.arr [], r)
        | cs' => parseElems fuel cs' []
      else if c = '{' then
        match skipWs rest with
        | '}' :: r => some (Json.obj [], r)
        | cs' => parseMembers fuel cs' []
      else
        parseNumber (c :: rest)

/-- Parse the elements of a non-empty JSON array (after `[`). -/
def parseElems : Nat → List Char → List Json → Option (Json × List Char)
  | 0, _, _ => none
  | Nat.succ fuel, cs, acc =>
    match parseValue fuel cs with
    | none => none
    | some (v, rest) =>
      match skipWs rest with
      | ',' :: r => parseElems fuel r (acc ++ [v])
      | ']' :: r => some (Json.arr (acc ++ [v]), r)
      | _ => none

/-- Parse the members of a non-empty JSON object (after `{`). -/
def parseMembers : Nat → List Char → List (String × Json) → Option (Json × List Char)
  | 0, _, _ => none
  | Nat.succ fuel, cs, acc =>
    match skipWs cs with
    | '"' :: rest =>
      match parseStringBody rest "" with
      | none => none
      | some (key, r₁) =>
        match skipWs r₁ with
        | ':' :: r₂ =>
          match parseValue fuel r₂ with
          | none => none
          | some (v, r₃) =>
            match skipWs r₃ with
            | ',' :: r₄ => parseMembers fuel r₄ (acc ++ [(key, v)])
            | '}' :: r₄ => some (Json.obj (acc ++ [(key, v)]), r₄)
            | _ => none
        | _ => none
    | _ => none

end

/-- The embedded `JSON.parse`: parse one value and require only whitespace
to remain. -/
def jsonParse (text : String) : Option Json :=
  match parseValue (text.length + 1) text.data with
  | some (v, rest) => if (skipWs rest).isEmpty then some v else none
  | none => none

/-- Model of JavaScript `text.split("\n")` on character lists: split on
newline separators, keeping empty pieces. -/
def splitCharList : List Char → List (List Char)
  | [] => [[]]
  | c :: rest =>
    if c = '\n' then [] :: splitCharList rest
    else
      match splitCharList rest with
      | [] => [[c]]
      | l :: ls => (c :: l) :: ls

/-- Model of JavaScript `text.split("\n")`. -/
def splitOnNewline (s : String) : List String :=
  (splitCharList s.data).map String.mk

/-- Model of JavaScript `String.prototype.trim`. -/
def jsTrim (s : String) : String :=
  String.mk (((s.data.dropWhile isJsTrimWs).reverse.dropWhile isJsTrimWs).reverse)

/-- Errors thrown by the client (model of `DurableStreamError` /
`SyntaxError`): a message and a code. -/
structure Err where
  msg : String
  code : String
deriving Repr, DecidableEq

/-- The error thrown by `JSON.parse` on malformed input. -/
def jsonParseError (line : String) : Err :=
  { msg := "Unexpected token in JSON: " ++ line, code := "SYNTAX_ERROR" }

/-- Embedding of `StreamResponseImpl.#parseJsonChunk`: try a whole-payload
`JSON.parse` (an array spreads into its elements, anything else is a
singleton); on failure split on newlines, drop lines that are blank after
trimming, and `JSON.parse` each remaining line to one record, propagating
the parse error of any line that still fails. -/
def parseJsonChunk (text : String) : Except Err (List Json) :=
  match jsonParse text with
  | some (Json.arr elems) => .ok elems
  | some v => .ok [v]
  | none =>
    let lines := (splitOnNewline text).filter (fun l => jsTrim l ≠ "")
    lines.mapM (fun line =>
      match jsonParse line with
      | some v => Except.ok v
      | none => Except.error (jsonParseError line))

/-- Session lifecycle states (`SessionState` in the source). -/
inductive MSessionState where
  | ready
  | consuming
  | closed
deriving Repr, DecidableEq

/-- The state of the `#closed` promise. -/
inductive PromiseState where
  | pending
  | resolved
  | rejected (e : Err)
deriving Repr, DecidableEq

/-- Live mode of the session: `false`, `true` (long-poll) or `"sse"`. -/
inductive MLiveMode where
  | off
  | longPoll
  | sse
deriving Repr, DecidableEq, BEq

/-- The continuation-relevant response headers: optional offset and cursor
values and whether the up-to-date header is present (`headers.has`). -/
structure RespHeaders where
  offsetH : Option String
  cursorH : Option String
  upToDateH : Bool
deriving Repr, DecidableEq

/-- A held HTTP response: headers plus an optional body, the body being the
list of text chunks its reader yields (`none` models a null body). -/
structure ResponseM where
  headers : RespHeaders
  body : Option (List String)
deriving Repr, DecidableEq

/-- One outcome of the injected `fetchNext` capability: a response, or a
rejection; `cancelDuring` records that `cancel()` ran concurrently with
the awaited fetch (so the signal is aborted by the time the rejection is
observed). -/
inductive FetchOutcome where
  | success (resp : ResponseM)
  | failure (e : Err) (cancelDuring : Bool)
deriving Repr

/-- A byte chunk tagged with the resumption position (`ByteChunk`). -/
structure ByteChunkM where
  data : String
  offset : String
  cursor : Option String
  upToDate : Bool
deriving Repr, DecidableEq

/-- The session object (`StreamResponseImpl`).  The injected capabilities
`fetchNext` and `startSSE` are modelled as oracles indexed by a call
counter. -/
structure Session where
  url : String
  contentType : Option String
  live : MLiveMode
  startOffset : String
  offset : String
  cursor : Option String
  upToDate : Bool
  state : MSessionState
  isJsonMode : Bool
  firstResponse : Option ResponseM
  aborted : Bool
  promise : PromiseState
  stopAfterUpToDate : Bool
  fetchNext : Nat → FetchOutcome
  fetchCount : Nat
  hasSSE : Bool
  sseNext : Nat → Option ByteChunkM
  sseCount : Nat
  sseStarted : Bool

/-- JavaScript promise resolution: settles the promise only if pending. -/
def settleResolve : PromiseState → PromiseState
  | .pending => .resolved
  | p => p

/-- JavaScript promise rejection: settles the promise only if pending. -/
def settleReject (e : Err) : PromiseState → PromiseState
  | .pending => .rejected e
  | p => p

/-- `#markConsuming`: `Ready → Consuming`, otherwise unchanged. -/
def markConsuming (s : Session) : Session :=
  if s.state = .ready then { s with state := .consuming } else s

/-- `#markClosed`: transition to `Closed` and resolve the closed promise,
unless already closed. -/
def markClosed (s : Session) : Session :=
  if s.state = .closed then s
  else { s with state := .closed, promise := settleResolve s.promise }

/-- `#markError`: transition to `Closed` and reject the closed promise,
unless already closed. -/
def markError (s : Session) (e : Err) : Session :=
  if s.state = .closed then s
  else { s with state := .closed, promise := settleReject e s.promise }

/-- `#shouldContinueLive`: continue past the first response unless a
promise helper set the stop flag or live mode is disabled. -/
def shouldContinueLive (s : Session) : Bool :=
  if s.stopAfterUpToDate then false
  else if s.live == .off then false
  else true

/-- Truthiness of a nullable header value (JavaScript `if (offset)`):
present and non-empty. -/
def headerTruthy : Option String → Bool
  | some v => v ≠ ""
  | none => false

/-- `#updateStateFromResponse`: overwrite `offset` and `cursor` only when
the corresponding header is truthy; set `upToDate` to whether the
up-to-date header is present. -/
def updateStateFromResponse (s : Session) (h : RespHeaders) : Session :=
  let s₁ := match h.offsetH with
    | some v => if v = "" then s else { s with offset := v }
    | none => s
  let s₂ := match h.cursorH with
    | some v => if v = "" then s₁ else { s₁ with cursor := some v }
    | none => s₁
  { s₂ with upToDate := h.upToDateH }

/-- `cancel()`: abort the controller (and return the SSE iterator), then
mark the session closed. -/
def cancelSession (s : Session) : Session :=
  markClosed { s with aborted := true }

/-- The read-loop of the first-response branch: collect every chunk the
body reader yields and concatenate them into one buffer. -/
def concatChunks : List String → String
  | [] => ""
  | c :: rest => c ++ concatChunks rest

/-- Body text of a continuation response (`response.arrayBuffer()`): the
whole body, empty when there is none. -/
def respBodyText (r : ResponseM) : String :=
  match r.body with
  | some cs => concatChunks cs
  | none => ""

/-- Controller events a single pull may emit. -/
inductive PullEv where
  | enqueue (c : ByteChunkM)
  | close
  | errorEv (e : Err)
deriving Repr, DecidableEq

/-- Per-producer state: whether the held first response has been consumed
by this byte stream. -/
structure ProducerState where
  firstConsumed : Bool
deriving Repr, DecidableEq

/-- The chunks among a list of controller events. -/
def enqueuedChunks : List PullEv → List ByteChunkM
  | [] => []
  | .enqueue c :: rest => c :: enqueuedChunks rest
  | _ :: rest => enqueuedChunks rest

/-- `#ensureJsonMode`: the invalid-mode error, naming the actual
content type. -/
def invalidModeError (contentType : Option String) : Err :=
  { msg := "JSON methods are only valid for JSON-mode streams. Content-Type is \x22"
      ++ contentType.getD "undefined" ++ "\x22 and json hint was not set."
    code := "BAD_REQUEST" }

/-- `#ensureJsonMode`: throw unless the session was negotiated in JSON
mode. -/
def ensureJsonMode (s : Session) : Except Err Unit :=
  if s.isJsonMode then .ok () else .error (invalidModeError s.contentType)

/-- One pull of the byte stream created by `#createByteStream`: consume the
held first response on the first pull, then continue with SSE or long-poll
according to `#shouldContinueLive`, mapping failures with an aborted signal
to a clean close. -/
def pull (s : Session) (p : ProducerState) : Session × ProducerState × List PullEv :=
  match p.firstConsumed, s.firstResponse with
  | false, some response =>
    let p' : ProducerState := { firstConsumed := true }
    let s₁ := { s with firstResponse := none }
    let chunk : ByteChunkM :=
      { data := match response.body with
          | some chunks => concatChunks chunks
          | none => ""
        offset := s₁.offset
        cursor := s₁.cursor
        upToDate := s₁.upToDate }
    if s₁.upToDate && !(shouldContinueLive s₁) then
      (markClosed s₁, p', [.enqueue chunk, .close])
    else if shouldContinueLive s₁ then
      (s₁, p', [.enqueue chunk])
    else
      (markClosed s₁, p', [.enqueue chunk, .close])
  | _, _ =>
    if shouldContinueLive s then
      if s.live == .sse && s.hasSSE then
        let s₁ := { s with sseStarted := true }
        match s₁.sseNext s₁.sseCount with
        | none => (markClosed s₁, p, [.close])
        | some chunk =>
          let s₂ := { s₁ with
            sseCount := s₁.sseCount + 1
            offset := chunk.offset
            cursor := chunk.cursor
            upToDate := chunk.upToDate }
          if s₂.upToDate && !(shouldContinueLive s₂) then
            (markClosed s₂, p, [.enqueue chunk, .close])
          else
            (s₂, p, [.enqueue chunk])
      else
        if s.aborted then
          (markClosed s, p, [.close])
        else
          match s.fetchNext s.fetchCount with
          | .failure e cancelDuring =>
            let s₁ := { s with fetchCount := s.fetchCount + 1 }
            let s₂ := if cancelDuring then cancelSession s₁ else s₁
            if s₂.aborted then
              (markClosed s₂, p, [.close])
            else
              (markError s₂ e, p, [.errorEv e])
          | .success resp =>
            let s₁ := updateStateFromResponse
              { s with fetchCount := s.fetchCount + 1 } resp.headers
            let chunk : ByteChunkM :=
              { data := respBodyText resp
                offset := s₁.offset
                cursor := s₁.cursor
                upToDate := s₁.upToDate }
            if s₁.upToDate && !(shouldContinueLive s₁) then
              (markClosed s₁, p, [.enqueue chunk, .close])
            else
              (s₁, p, [.enqueue chunk])
    else
      (markClosed s, p, [.close])

/-- `#createByteStream()`: marks the session consuming at stream creation
and hands out a fresh producer. -/
def createByteStream (s : Session) : Session × ProducerState :=
  (markConsuming s, { firstConsumed := false })

/-- State of a `ReadableStream` reader: queued chunks, closed flag, stored
error. -/
structure ReaderState where
  queue : List ByteChunkM
  closedFlag : Bool
  errorFlag : Option Err
deriving Repr, DecidableEq

/-- A reader before any event. -/
def emptyReader : ReaderState :=
  { queue := [], closedFlag := false, errorFlag := none }

/-- Apply one controller event to the reader state. -/
def applyEv (r : ReaderState) : PullEv → ReaderState
  | .enqueue c => if r.closedFlag then r else { r with queue := r.queue ++ [c] }
  | .close => { r with closedFlag := true }
  | .errorEv e => { r with errorFlag := some e }

/-- Result of one `reader.read()`. -/
inductive ReadResult where
  | chunk (c : ByteChunkM)
  | done
  | threw (e : Err)
deriving Repr, DecidableEq

/-- One `reader.read()`: serve from the queue, report a closed or errored
stream, otherwise run one pull (every pull emits at least one event). -/
def readStep (s : Session) (p : ProducerState) (r : ReaderState) :
    Session × ProducerState × ReaderState × ReadResult :=
  match r.queue with
  | c :: rest => (s, p, { r with queue := rest }, .chunk c)
  | [] =>
    if r.closedFlag then (s, p, r, .done)
    else
      match r.errorFlag with
      | some e => (s, p, r, .threw e)
      | none =>
        match pull s p with
        | (s', p', evs) =>
          let r' := evs.foldl applyEv r
          match r'.queue with
          | c :: rest => (s', p', { r' with queue := rest }, .chunk c)
          | [] =>
            if r'.closedFlag then (s', p', r', .done)
            else
              match r'.errorFlag with
              | some e => (s', p', r', .threw e)
              | none => (s', p', r', .done)

/-- The accumulation loop of `json()`: read chunks, decode non-empty
payloads, stop after an up-to-date chunk, then mark the session closed and
return the flattened records.  Fuel bounds the loop; `none` means the fuel
ran out before the loop finished. -/
def jsonAccum : Nat → Session → ProducerState → ReaderState → List Json →
    Session × Option (Except Err (List Json))
  | 0, s, _, _, _ => (s, none)
  | Nat.succ fuel, s, p, r, acc =>
    match readStep s p r with
    | (s', _, _, .done) => (markClosed s', some (.ok acc))
    | (s', _, _, .threw e) => (s', some (.error e))
    | (s', p', r', .chunk c) =>
      if c.data.length > 0 then
        match parseJsonChunk c.data with
        | .error e => (s', some (.error e))
        | .ok items =>
          let acc' := acc ++ items
          if c.upToDate then (markClosed s', some (.ok acc'))
          else jsonAccum fuel s' p' r' acc'
      else
        if c.upToDate then (markClosed s', some (.ok acc))
        else jsonAccum fuel s' p' r' acc

/-- `json()`: guard on JSON mode, set the stop-after-up-to-date flag,
create the byte stream and accumulate records. -/
def jsonMethod (fuel : Nat) (s : Session) :
    Session × Option (Except Err (List Json)) :=
  match ensureJsonMode s with
  | .error e => (s, some (.error e))
  | .ok _ =>
    let s₁ := { s with stopAfterUpToDate := true }
    match createByteStream s₁ with
    | (s₂, p) => jsonAccum fuel s₂ p emptyReader []

/-- `jsonStream()`: guard on JSON mode, then create the byte stream the
record stream is piped from. -/
def jsonStreamMethod (s : Session) : Except Err (Session × ProducerState) :=
  match ensureJsonMode s with
  | .error e => .error e
  | .ok _ => .ok (createByteStream s)

/-- Outcome of one invocation of a push-subscription handler. -/
inductive HandlerOutcome where
  | ok
  | throws (e : Err)

/-- The background delivery loop of `subscribeJson`: read a chunk, stop if
unsubscribed, decode, invoke the handler; an error with the local
unsubscribe signal not yet aborted is rethrown out of the loop (`.error`),
after unsubscription it is swallowed.  The loop never touches the session
lifecycle itself. -/
def subscribeLoop (handler : Nat → HandlerOutcome) (localAborted : Bool) :
    Nat → Nat → Session → ProducerState → ReaderState →
    Session × Option (Except Err Unit)
  | 0, _, s, _, _ => (s, none)
  | Nat.succ fuel, idx, s, p, r =>
    match readStep s p r with
    | (s', _, _, .done) => (s', some (.ok ()))
    | (s', _, _, .threw e) =>
      (s', some (if localAborted then .ok () else .error e))
    | (s', p', r', .chunk c) =>
      if localAborted then (s', some (.ok ()))
      else
        let itemsRes : Except Err (List Json) :=
          if c.data.length > 0 then parseJsonChunk c.data else .ok []
        match itemsRes with
        | .error e => (s', some (if localAborted then .ok () else .error e))
        | .ok _ =>
          match handler idx with
          | .throws e => (s', some (if localAborted then .ok () else .error e))
          | .ok => subscribeLoop handler localAborted fuel (idx + 1) s' p' r'

/-- `subscribeJson()`: guard on JSON mode, create the byte stream and run
the background delivery loop (here with the local unsubscribe flag fixed,
modelling whether unsubscription happened before the run). -/
def subscribeJsonMethod (handler : Nat → HandlerOutcome) (localAborted : Bool)
    (fuel : Nat) (s : Session) :
    Except Err (Session × Option (Except Err Unit)) :=
  match ensureJsonMode s with
  | .error e => .error e
  | .ok _ =>
    match createByteStream s with
    | (s₁, p) => .ok (subscribeLoop handler localAborted fuel 0 s₁ p emptyReader)

/-- The close-path operations a session can receive, in any order:
`#markClosed` (clean completion), `#markError` (failure), and `cancel()`
from any consumer-facing path. -/
inductive CloseOp where
  | clean
  | errorOp (e : Err)
  | cancelOp

/-- Apply one close-path operation. -/
def applyCloseOp (s : Session) : CloseOp → Session
  | .clean => markClosed s
  | .errorOp e => markError s e
  | .cancelOp => cancelSession s

/-- Apply a sequence of close-path operations. -/
def runCloseOps (s : Session) (ops : List CloseOp) : Session :=
  ops.foldl applyCloseOp s

/-! ### Helper lemmas about the structured-record decoder -/

theorem parseJsonChunk_of_arr (text : String) (elems : List Json)
    (h : jsonParse text = some (Json.arr elems)) :
    parseJsonChunk text = Except.ok elems := by
  simp only [parseJsonChunk, h]

theorem parseJsonChunk_of_single (text : String) (v : Json)
    (h : jsonParse text = some v) (hv : ∀ elems, v ≠ Json.arr elems) :
    parseJsonChunk text = Except.ok [v] := by
  cases v with
  | arr elems => exact absurd rfl (hv elems)
  | null => simp only [parseJsonChunk, h]
  | bool b => simp only [parseJsonChunk, h]
  | num l => simp only [parseJsonChunk, h]
  | str s => simp only [parseJsonChunk, h]
  | obj m => simp only [parseJsonChunk, h]

theorem parseJsonChunk_of_fallback (text : String) (h : jsonParse text = none) :
    parseJsonChunk text =
      ((splitOnNewline text).filter (fun l => jsTrim l ≠ "")).mapM
        (fun line => match jsonParse line with
          | some v => Except.ok v
          | none => Except.error (jsonParseError line)) := by
  simp only [parseJsonChunk, h]

theorem mapM_error_of_mem {α β : Type} (f : α → Except Err β) (l : List α)
    (x : α) (hx : x ∈ l) (e : Err) (hf : f x = .error e) :
    ∀ res, l.mapM f ≠ .ok res := by
  induction l with
  | nil => cases hx
  | cons y ys ih =>
    intro res hres
    rw [List.mapM_cons] at hres
    cases hx with
    | head => rw [hf] at hres; cases hres
    | tail _ hmem =>
      cases hy : f y with
      | error e' => rw [hy] at hres; cases hres
      | ok v =>
        rw [hy] at hres
        cases hys : ys.mapM f with
        | error e' => rw [hys] at hres; cases hres
        | ok vs => exact ih hmem vs hys

theorem skipWs_trimws (cs : List Char) (h : ∀ c ∈ cs, isJsTrimWs c = true) :
    skipWs cs = [] ∨
      ∃ c rest, skipWs cs = c :: rest ∧ (c = '\x0c' ∨ c = '\x0b') := by
  induction cs with
  | nil => left; rfl
  | cons c rest ih =>
    have hc := h c (List.mem_cons_self c rest)
    by_cases hw : isJsonWs c = true
    · have heq : skipWs (c :: rest) = skipWs rest := by
        simp [skipWs, hw]
      rw [heq]
      exact ih (fun x hx => h x (List.mem_cons_of_mem c hx))
    · right
      refine ⟨c, rest, ?_, ?_⟩
      · simp [skipWs, hw]
      · simp only [isJsTrimWs, Bool.or_eq_true, decide_eq_true_eq] at hc
        rcases hc with ((hj | hf) | hv)
        · exact absurd hj hw
        · left; exact hf
        · right; exact hv

theorem parseValue_trimws (fuel : Nat) (cs : List Char)
    (h : ∀ c ∈ cs, isJsTrimWs c = true) : parseValue fuel cs = none := by
  cases fuel with
  | zero => rfl
  | succ n =>
    rcases skipWs_trimws cs h with hnil | ⟨c, rest, heq, hc⟩
    · simp only [parseValue, hnil]
    · simp only [parseValue, heq]
      rcases hc with hf | hv
      · subst hf; simp [parseNumber]
      · subst hv; simp [parseNumber]

theorem jsonParse_trimws (text : String)
    (h : ∀ c ∈ text.data, isJsTrimWs c = true) : jsonParse text = none := by
  simp only [jsonParse, parseValue_trimws _ _ h]

theorem splitCharList_mem_subset (cs : List Char) (l : List Char)
    (hl : l ∈ splitCharList cs) : ∀ c ∈ l, c ∈ cs := by
  induction cs generalizing l with
  | nil =>
    simp only [splitCharList, List.mem_singleton] at hl
    subst hl; intro c hc; cases hc
  | cons x rest ih =>
    by_cases hx : x = '\n'
    · simp only [splitCharList, hx, if_true, List.mem_cons] at hl
      rcases hl with hl | hl
      · subst hl; intro c hc; cases hc
      · intro c hc
        exact List.mem_cons_of_mem _ (ih l hl c hc)
    · simp only [splitCharList, hx, if_false] at hl
      intro c hc
      rcases hrest : splitCharList rest with _ | ⟨l₀, ls⟩
      · rw [hrest] at hl
        simp only [List.mem_singleton] at hl
        subst hl
        simp only [List.mem_singleton] at hc
        rw [hc]
        exact List.mem_cons_self _ _
      · rw [hrest] at hl
        simp only [List.mem_cons] at hl
        rcases hl with hl | hl
        · subst hl
          rcases List.mem_cons.mp hc with hc | hc
          · rw [hc]; exact List.mem_cons_self _ _
          · have hcr : c ∈ rest :=
              ih l₀ (by rw [hrest]; exact List.mem_cons_self l₀ ls) c hc
            exact List.mem_cons_of_mem _ hcr
        · have hcr : c ∈ rest :=
            ih l (by rw [hrest]; exact List.mem_cons_of_mem l₀ hl) c hc
          exact List.mem_cons_of_mem _ hcr

theorem jsTrim_all_ws (s : String) (h : ∀ c ∈ s.data, isJsTrimWs c = true) :
    jsTrim s = "" := by
  have h₁ : s.data.dropWhile isJsTrimWs = [] := by
    rw [List.dropWhile_eq_nil_iff]
    exact fun c hc => h c hc
  simp only [jsTrim, h₁, List.reverse_nil, List.dropWhile_nil]

/-! ### Claim theorems for the decoder -/

/-- C1: the structured-record decoder first attempts a whole-payload JSON
parse (an array yields its elements in order, any other JSON value yields
a one-element list); if that parse fails it splits the text on newlines,
drops blank lines, and parses each remaining line independently, raising a
decode error (never silently dropping) on any line that still fails to
parse; in particular payload `["a","b"]` decodes to records `[a,b]`,
payload `\x7b"x":1\x7d` to `[\x7bx:1\x7d]`, the two-line payload to one
record per line, and `\x7bbad json` raises a decode error. -/
theorem C1_structured_decoder_policy :
    (∀ text elems, jsonParse text = some (Json.arr elems) →
        parseJsonChunk text = Except.ok elems) ∧
    (∀ text v, jsonParse text = some v → (∀ elems, v ≠ Json.arr elems) →
        parseJsonChunk text = Except.ok [v]) ∧
    (∀ text, jsonParse text = none →
        parseJsonChunk text =
          ((splitOnNewline text).filter (fun l => jsTrim l ≠ "")).mapM
            (fun line => match jsonParse line with
              | some v => Except.ok v
              | none => Except.error (jsonParseError line))) ∧
    (∀ text line, jsonParse text = none →
        line ∈ (splitOnNewline text).filter (fun l => jsTrim l ≠ "") →
        jsonParse line = none →
        ∀ res, parseJsonChunk text ≠ Except.ok res) ∧
    parseJsonChunk "[\"a\",\"b\"]" = Except.ok [Json.str "a", Json.str "b"] ∧
    parseJsonChunk "\x7b\"x\":1\x7d" = Except.ok [Json.obj [("x", Json.num "1")]] ∧
    parseJsonChunk "\x7b\"x\":1\x7d\n\x7b\"y\":2\x7d" =
      Except.ok [Json.obj [("x", Json.num "1")], Json.obj [("y", Json.num "2")]] ∧
    parseJsonChunk "\x7bbad json" = Except.error (jsonParseError "\x7bbad json") := by
  refine ⟨parseJsonChunk_of_arr, parseJsonChunk_of_single, parseJsonChunk_of_fallback,
    ?_, rfl, rfl, rfl, rfl⟩
  intro text line hnone hmem hline res
  rw [parseJsonChunk_of_fallback text hnone]
  refine mapM_error_of_mem _ _ line hmem (jsonParseError line) ?_ res
  simp only [hline]

/-- C1 witness: the decoding policy evaluated at concrete payloads, with
every hypothesis discharged by computation. -/
theorem C1_structured_decoder_policy_witness :
    parseJsonChunk "[3]" = Except.ok [Json.num "3"] ∧
    parseJsonChunk "3" = Except.ok [Json.num "3"] ∧
    (∀ res, parseJsonChunk "\x7bx\n" ≠ Except.ok res) :=
  ⟨C1_structured_decoder_policy.1 "[3]" [Json.num "3"] rfl,
   C1_structured_decoder_policy.2.1 "3" (Json.num "3") rfl
     (fun _ h => Json.noConfusion h),
   C1_structured_decoder_policy.2.2.2.1 "\x7bx\n" "\x7bx" rfl
     (by decide) rfl⟩

/-- C9: a payload consisting only of whitespace and blank lines (including
the empty payload) decodes to an empty record list without a decode error,
even though the whole-payload JSON parse of such text fails. -/
theorem C9_blank_payload_decodes_empty (text : String)
    (h : ∀ c ∈ text.data, isJsTrimWs c = true) :
    parseJsonChunk text = Except.ok [] ∧ jsonParse text = none := by
  have hparse := jsonParse_trimws text h
  refine ⟨?_, hparse⟩
  simp only [parseJsonChunk, hparse]
  have hfilter : (splitOnNewline text).filter (fun l => jsTrim l ≠ "") = [] := by
    rw [List.filter_eq_nil_iff]
    intro l hl
    simp only [splitOnNewline, List.mem_map] at hl
    obtain ⟨l', hl', rfl⟩ := hl
    have hchars : ∀ c ∈ l', isJsTrimWs c = true := by
      intro c hc
      exact h c (splitCharList_mem_subset _ _ hl' c hc)
    have htrim : jsTrim (String.mk l') = "" := jsTrim_all_ws _ hchars
    simp [htrim]
  rw [hfilter]
  rfl

/-- C9 witness: a payload of spaces, tabs and blank lines decodes to no
records. -/
theorem C9_blank_payload_decodes_empty_witness :
    parseJsonChunk " \t\n\n  \n" = Except.ok [] ∧ jsonParse " \t\n\n  \n" = none :=
  C9_blank_payload_decodes_empty " \t\n\n  \n" (by decide)

/-! ### Concrete sessions and oracles for witnesses -/

/-- A transport error used in concrete tests. -/
def netErr : Err := { msg := "network failure", code := "FETCH_FAILED" }

/-- A fetch oracle that always fails without a concurrent cancel. -/
def sampleFetch : Nat → FetchOutcome := fun _ => .failure netErr false

/-- An SSE oracle that is immediately done. -/
def sampleSSE : Nat → Option ByteChunkM := fun _ => none

/-- A concrete long-poll JSON session in `Ready` state, promise pending,
holding an unread first response. -/
def readySession : Session :=
  { url := "https://example.com/streams/s1"
    contentType := some "application/json"
    live := .longPoll
    startOffset := "-1"
    offset := "5"
    cursor := some "c5"
    upToDate := true
    state := .ready
    isJsonMode := true
    firstResponse := some
      { headers := { offsetH := some "5", cursorH := some "c5", upToDateH := true }
        body := some ["[1]"] }
    aborted := false
    promise := .pending
    stopAfterUpToDate := false
    fetchNext := sampleFetch
    fetchCount := 0
    hasSSE := false
    sseNext := sampleSSE
    sseCount := 0
    sseStarted := false }

/-- Headers of the initial response used in the replay scenario. -/
def replayHdr : RespHeaders := { offsetH := some "2", cursorH := none, upToDateH := true }

/-- A replay-mode (`live = false`) session whose initial response carries
body `[1,2]` and is already up to date. -/
def replaySession : Session :=
  { readySession with
    live := .off
    firstResponse := some { headers := replayHdr, body := some ["[1,2]"] } }

/-- A raw-bytes session (not negotiated in JSON mode). -/
def rawSession : Session :=
  { readySession with
    isJsonMode := false
    contentType := some "application/octet-stream" }

/-- A live session that is not yet up to date (initial body `[1]`). -/
def liveSession : Session :=
  { readySession with upToDate := false }

/-- A consuming session whose next continuation fetch rejects while a
cancel arrives concurrently. -/
def cancelRaceSession : Session :=
  { readySession with
    state := .consuming
    firstResponse := none
    fetchNext := fun _ => .failure netErr true }

/-- A consuming session whose next continuation fetch rejects with no
cancellation in flight. -/
def plainFailSession : Session :=
  { readySession with state := .consuming, firstResponse := none }

/-- A push-subscription handler that throws on its first invocation. -/
def throwingHandler : Nat → HandlerOutcome := fun _ => .throws netErr

/-! ### Lemmas about the session state machine -/

theorem updateState_fields (s : Session) (h : RespHeaders) :
    (updateStateFromResponse s h).offset =
      (match h.offsetH with
       | some v => if v = "" then s.offset else v
       | none => s.offset) ∧
    (updateStateFromResponse s h).cursor =
      (match h.cursorH with
       | some v => if v = "" then s.cursor else some v
       | none => s.cursor) ∧
    (updateStateFromResponse s h).upToDate = h.upToDateH ∧
    (updateStateFromResponse s h).state = s.state ∧
    (updateStateFromResponse s h).promise = s.promise ∧
    (updateStateFromResponse s h).fetchCount = s.fetchCount := by
  obtain ⟨oh, ch, uh⟩ := h
  cases oh <;> cases ch <;>
    dsimp only [updateStateFromResponse] <;>
    (try split_ifs) <;> simp_all

theorem markClosed_state (s : Session) : (markClosed s).state = .closed := by
  unfold markClosed; split <;> simp_all

theorem markError_state (s : Session) (e : Err) : (markError s e).state = .closed := by
  unfold markError; split <;> simp_all

theorem cancelSession_state (s : Session) : (cancelSession s).state = .closed := by
  unfold cancelSession; exact markClosed_state _

theorem applyCloseOp_closed (s : Session) (op : CloseOp) (h : s.state = .closed) :
    (applyCloseOp s op).state = .closed ∧ (applyCloseOp s op).promise = s.promise := by
  cases op with
  | clean => simp [applyCloseOp, markClosed, h]
  | errorOp e => simp [applyCloseOp, markError, h]
  | cancelOp => simp [applyCloseOp, cancelSession, markClosed, h]

theorem runCloseOps_closed (ops : List CloseOp) (s : Session) (h : s.state = .closed) :
    (runCloseOps s ops).state = .closed ∧ (runCloseOps s ops).promise = s.promise := by
  induction ops generalizing s with
  | nil => exact ⟨h, rfl⟩
  | cons op rest ih =>
    have h₁ := applyCloseOp_closed s op h
    have h₂ := ih (applyCloseOp s op) h₁.1
    simp only [runCloseOps, List.foldl_cons] at h₂ ⊢
    exact ⟨h₂.1, h₂.2.trans h₁.2⟩

/-- The promise value the first close-path operation settles the closed
promise to: resolved for a clean close or a cancellation, rejected for an
error close. -/
def closeOpPromise : CloseOp → PromiseState
  | .clean => .resolved
  | .errorOp e => .rejected e
  | .cancelOp => .resolved

theorem pull_state (s : Session) (p : ProducerState) :
    (pull s p).1.state = s.state ∨ (pull s p).1.state = .closed := by
  unfold pull
  split <;> dsimp only <;>
    (repeat' first
      | split_ifs
      | split) <;>
    simp [markClosed_state, markError_state, cancelSession_state,
      (updateState_fields _ _).2.2.2.1]

/-! ### Claim theorems for the session state machine -/

/-- C2: a session in replay mode (`live = false`) whose initial response
carries body `[1,2]` and is already caught up: `json()` returns exactly the
records `[1,2]`, and afterwards the session is `Closed` with the closed
promise resolved cleanly. -/
theorem C2_replay_toRecords (s : Session) (hdr : RespHeaders)
    (hlive : s.live = .off) (hstate : s.state = .ready)
    (hpr : s.promise = .pending) (hjson : s.isJsonMode = true)
    (hfr : s.firstResponse = some { headers := hdr, body := some ["[1,2]"] })
    (hutd : s.upToDate = true) :
    (jsonMethod 2 s).2 = some (.ok [Json.num "1", Json.num "2"]) ∧
    (jsonMethod 2 s).1.state = .closed ∧
    (jsonMethod 2 s).1.promise = .resolved := by
  obtain ⟨url, ct, live, so, off, cur, utd, st, ijm, fr, ab, pr, saut, fn, fc, hs, sn, sc, ss⟩ := s
  dsimp only at hlive hstate hpr hjson hfr hutd
  subst hlive hstate hpr hjson hfr hutd
  exact ⟨rfl, rfl, rfl⟩

/-- C2 witness: the replay scenario evaluated on a concrete session. -/
theorem C2_replay_toRecords_witness :
    (jsonMethod 2 replaySession).2 = some (.ok [Json.num "1", Json.num "2"]) ∧
    (jsonMethod 2 replaySession).1.state = .closed ∧
    (jsonMethod 2 replaySession).1.promise = .resolved :=
  C2_replay_toRecords replaySession replayHdr rfl rfl rfl rfl rfl rfl

/-- C3 counterexample: an absent up-to-date header does not keep the prior
`upToDate` value — the code sets `upToDate` to whether the header is
present, resetting a previously known `true` to `false`, contradicting the
claim that all three fields keep their prior value when the header is
absent. -/
theorem C3_counterexample_upToDate_reset :
    readySession.upToDate = true ∧
    (updateStateFromResponse readySession
      { offsetH := none, cursorH := none, upToDateH := false }).upToDate = false ∧
    (updateStateFromResponse readySession
      { offsetH := none, cursorH := none, upToDateH := false }).offset =
      readySession.offset :=
  ⟨rfl, rfl, rfl⟩

/-- C3 amended: on a continuation response, `offset` and `cursor` are
overwritten only when the corresponding header is present and non-empty
(absent or empty headers keep the prior value), while `upToDate` is always
set to whether the up-to-date header is present (absent means `false`). -/
theorem C3_header_update_amended (s : Session) (h : RespHeaders) :
    (h.offsetH = none → (updateStateFromResponse s h).offset = s.offset) ∧
    (h.cursorH = none → (updateStateFromResponse s h).cursor = s.cursor) ∧
    (∀ v, h.offsetH = some v → v ≠ "" → (updateStateFromResponse s h).offset = v) ∧
    (∀ v, h.cursorH = some v → v ≠ "" → (updateStateFromResponse s h).cursor = some v) ∧
    (updateStateFromResponse s h).upToDate = h.upToDateH := by
  obtain ⟨h₁, h₂, h₃, -, -, -⟩ := updateState_fields s h
  refine ⟨?_, ?_, ?_, ?_, h₃⟩
  · intro ho; rw [h₁, ho]
  · intro hc; rw [h₂, hc]
  · intro v ho hv; rw [h₁, ho]; simp [hv]
  · intro v hc hv; rw [h₂, hc]; simp [hv]

/-- C3 witness: the amended update behaviour at concrete headers. -/
theorem C3_header_update_amended_witness :
    (updateStateFromResponse readySession
      { offsetH := some "7", cursorH := none, upToDateH := true }).offset = "7" ∧
    (updateStateFromResponse readySession
      { offsetH := some "7", cursorH := none, upToDateH := true }).cursor =
      readySession.cursor :=
  ⟨(C3_header_update_amended readySession
      { offsetH := some "7", cursorH := none, upToDateH := true }).2.2.1
      "7" rfl (by decide),
   (C3_header_update_amended readySession
      { offsetH := some "7", cursorH := none, upToDateH := true }).2.1 rfl⟩

/-- C4: on a session not negotiated in JSON mode, every record-decoding
method (`json`, `jsonStream`, `subscribeJson`) fails at call time with the
invalid-mode error naming the actual content type, leaving the session
untouched (no fetch is issued and the held first response is not read); on
a JSON-mode session the same guard passes. -/
theorem C4_json_mode_guard (s : Session) (fuel : Nat)
    (handler : Nat → HandlerOutcome) (la : Bool) :
    (s.isJsonMode = false →
      jsonMethod fuel s = (s, some (.error (invalidModeError s.contentType))) ∧
      jsonStreamMethod s = .error (invalidModeError s.contentType) ∧
      subscribeJsonMethod handler la fuel s =
        .error (invalidModeError s.contentType)) ∧
    (s.isJsonMode = true → ensureJsonMode s = .ok ()) := by
  constructor
  · intro h
    refine ⟨?_, ?_, ?_⟩ <;>
      simp [jsonMethod, jsonStreamMethod, subscribeJsonMethod, ensureJsonMode, h]
  · intro h
    simp [ensureJsonMode, h]

/-- C4 witness: the guard evaluated on a concrete raw-bytes session and a
concrete JSON-mode session. -/
theorem C4_json_mode_guard_witness :
    jsonMethod 3 rawSession =
      (rawSession, some (.error (invalidModeError (some "application/octet-stream")))) ∧
    ensureJsonMode readySession = .ok () :=
  ⟨((C4_json_mode_guard rawSession 3 throwingHandler false).1 rfl).1,
   (C4_json_mode_guard readySession 3 throwingHandler false).2 rfl⟩

/-- C5: starting from any not-yet-closed session with a pending closed
promise, the first close-path operation (clean close, error close, or
cancel — including cancel straight from `Ready` and cancel after
completion) settles the closed promise exactly once — resolved for a clean
close or a cancellation, rejected for an error close — and every later
close, error, or cancel operation, in any order, leaves the state `Closed`
and the settled promise unchanged. -/
theorem C5_closed_settled_once (s : Session) (ops : List CloseOp) (op : CloseOp)
    (hstate : s.state ≠ .closed) (hp : s.promise = .pending) :
    (applyCloseOp s op).state = .closed ∧
    (applyCloseOp s op).promise = closeOpPromise op ∧
    (runCloseOps (applyCloseOp s op) ops).state = .closed ∧
    (runCloseOps (applyCloseOp s op) ops).promise = closeOpPromise op := by
  have h₁ : (applyCloseOp s op).state = .closed := by
    cases op with
    | clean => exact markClosed_state s
    | errorOp e => exact markError_state s e
    | cancelOp => exact cancelSession_state s
  have h₂ : (applyCloseOp s op).promise = closeOpPromise op := by
    cases op with
    | clean =>
      simp [applyCloseOp, markClosed, hstate, hp, settleResolve, closeOpPromise]
    | errorOp e =>
      simp [applyCloseOp, markError, hstate, hp, settleReject, closeOpPromise]
    | cancelOp =>
      simp [applyCloseOp, cancelSession, markClosed, hstate, hp, settleResolve,
        closeOpPromise]
  have h₃ := runCloseOps_closed ops (applyCloseOp s op) h₁
  exact ⟨h₁, h₂, h₃.1, h₃.2.trans h₂⟩

/-- C5 witness: an error close from `Ready` settles the promise rejected,
and later clean closes, cancels and error closes change nothing. -/
theorem C5_closed_settled_once_witness :
    (applyCloseOp readySession (.errorOp netErr)).state = .closed ∧
    (applyCloseOp readySession (.errorOp netErr)).promise = .rejected netErr ∧
    (runCloseOps (applyCloseOp readySession (.errorOp netErr))
      [.clean, .cancelOp, .errorOp netErr]).state = .closed ∧
    (runCloseOps (applyCloseOp readySession (.errorOp netErr))
      [.clean, .cancelOp, .errorOp netErr]).promise = .rejected netErr :=
  C5_closed_settled_once readySession [.clean, .cancelOp, .errorOp netErr]
    (.errorOp netErr) (by decide) rfl

/-- C6: when a long-poll continuation fetch rejects while the session's
cancellation signal is already aborted (a cancel raced the pending fetch),
the failure is treated as a clean close: the session transitions to
`Closed` with the closed promise resolved and the stream is closed without
an error event; only a failure without a pending cancellation rejects the
promise and errors the stream. -/
theorem C6_abort_race_clean_close (s : Session) (p : ProducerState) (e : Err)
    (hstate : s.state = .consuming) (hpr : s.promise = .pending)
    (hfr : s.firstResponse = none) (hlive : s.live = .longPoll)
    (hstop : s.stopAfterUpToDate = false) (hab : s.aborted = false) :
    (s.fetchNext s.fetchCount = .failure e true →
      (pull s p).2.2 = [.close] ∧
      (pull s p).1.state = .closed ∧ (pull s p).1.promise = .resolved) ∧
    (s.fetchNext s.fetchCount = .failure e false →
      (pull s p).2.2 = [.errorEv e] ∧
      (pull s p).1.state = .closed ∧ (pull s p).1.promise = .rejected e) := by
  obtain ⟨url, ct, live, so, off, cur, utd, st, ijm, fr, ab, pr, saut, fn, fc, hs, sn, sc, ss⟩ := s
  dsimp only at hstate hpr hfr hlive hstop hab
  subst hstate hpr hfr hlive hstop hab
  obtain ⟨fcflag⟩ := p
  constructor <;> intro hf <;> dsimp only at hf <;> cases fcflag <;>
    simp [pull, shouldContinueLive, hf, cancelSession, markClosed, markError,
      settleResolve, settleReject,
      show (MLiveMode.longPoll == MLiveMode.off) = false from rfl,
      show (MLiveMode.longPoll == MLiveMode.sse) = false from rfl]

/-- C6 witness: the race evaluated on concrete sessions, one with a
concurrent cancel and one without. -/
theorem C6_abort_race_clean_close_witness :
    ((pull cancelRaceSession { firstConsumed := true }).2.2 = [.close] ∧
      (pull cancelRaceSession { firstConsumed := true }).1.state = .closed ∧
      (pull cancelRaceSession { firstConsumed := true }).1.promise = .resolved) ∧
    ((pull plainFailSession { firstConsumed := true }).2.2 = [.errorEv netErr] ∧
      (pull plainFailSession { firstConsumed := true }).1.state = .closed ∧
      (pull plainFailSession { firstConsumed := true }).1.promise = .rejected netErr) :=
  ⟨(C6_abort_race_clean_close cancelRaceSession { firstConsumed := true } netErr
      rfl rfl rfl rfl rfl rfl).1 rfl,
   (C6_abort_race_clean_close plainFailSession { firstConsumed := true } netErr
      rfl rfl rfl rfl rfl rfl).2 rfl⟩

/-- C7: on the first pull of a producer holding the initial response, the
whole body is drained into a single buffer and emitted as exactly one
chunk tagged with the resumption position captured from the initial
response headers; a body-less response yields exactly one empty-data chunk
with the same tags. -/
theorem C7_first_pull_single_chunk (s : Session) (p : ProducerState)
    (resp : ResponseM)
    (hfr : s.firstResponse = some resp) (hp : p.firstConsumed = false) :
    (∀ chunks, resp.body = some chunks →
      enqueuedChunks (pull s p).2.2 =
        [{ data := concatChunks chunks, offset := s.offset, cursor := s.cursor,
           upToDate := s.upToDate }]) ∧
    (resp.body = none →
      enqueuedChunks (pull s p).2.2 =
        [{ data := "", offset := s.offset, cursor := s.cursor,
           upToDate := s.upToDate }]) := by
  obtain ⟨fc⟩ := p
  dsimp only at hp
  subst hp
  constructor
  · intro chunks hbody
    simp only [pull, hfr, hbody]
    split_ifs <;> simp [enqueuedChunks]
  · intro hbody
    simp only [pull, hfr, hbody]
    split_ifs <;> simp [enqueuedChunks]

/-- C7 witness: the first pull of a concrete session emits the single
fully-drained chunk with the initial position tags. -/
theorem C7_first_pull_single_chunk_witness :
    enqueuedChunks (pull readySession { firstConsumed := false }).2.2 =
      [{ data := concatChunks ["[1]"], offset := readySession.offset,
         cursor := readySession.cursor, upToDate := readySession.upToDate }] :=
  (C7_first_pull_single_chunk readySession { firstConsumed := false }
      { headers := { offsetH := some "5", cursorH := some "c5", upToDateH := true }
        body := some ["[1]"] }
      rfl rfl).1 ["[1]"] rfl

/-- C8 counterexample: the `Ready → Consuming` transition happens when the
byte stream is created (when a consumption method is invoked), not on the
first chunk pull — a session whose stream was created but never pulled is
already `Consuming`, contradicting the claim that it remains `Ready` until
the first chunk is pulled. -/
theorem C8_counterexample_consuming_before_pull :
    readySession.state = .ready ∧
    (createByteStream readySession).1.state = .consuming ∧
    (createByteStream readySession).1.promise = .pending :=
  ⟨rfl, rfl, rfl⟩

/-- C8 amended: the `Ready → Consuming` transition occurs exactly once, at
the creation of the byte stream by the first consumption call — which is
at or before the first chunk pull; `markConsuming` is idempotent, and no
pull ever returns a consuming session to `Ready` (it can only stay
`Consuming` or become `Closed`). -/
theorem C8_consuming_transition_amended (s : Session) :
    ((createByteStream s).1.state =
      if s.state = .ready then MSessionState.consuming else s.state) ∧
    (markConsuming (markConsuming s) = markConsuming s) ∧
    (∀ p, s.state = .consuming →
      ((pull s p).1.state = .consuming ∨ (pull s p).1.state = .closed)) ∧
    (∀ p, s.state = .closed → (pull s p).1.state = .closed) := by
  refine ⟨?_, ?_, ?_, ?_⟩
  · unfold createByteStream markConsuming
    split_ifs <;> rfl
  · unfold markConsuming
    split_ifs <;> simp_all
  · intro p hs
    rcases pull_state s p with h | h
    · left; rw [h, hs]
    · right; exact h
  · intro p hs
    rcases pull_state s p with h | h
    · rw [h, hs]
    · exact h

/-- C8 witness: the amended transition discipline on concrete sessions. -/
theorem C8_consuming_transition_amended_witness :
    ((createByteStream readySession).1.state =
      if readySession.state = .ready then MSessionState.consuming
      else readySession.state) ∧
    ((pull plainFailSession { firstConsumed := true }).1.state = .consuming ∨
      (pull plainFailSession { firstConsumed := true }).1.state = .closed) :=
  ⟨(C8_consuming_transition_amended readySession).1,
   (C8_consuming_transition_amended plainFailSession).2.2.1
      { firstConsumed := true } rfl⟩

/-- C10: if a `subscribeJson` handler throws before unsubscription, the
background delivery loop terminates by rethrowing the error, but the
session is not transitioned to `Closed` and its closed promise stays
pending; the session closes (with the promise resolved) only once
`cancel` — which the returned unsubscribe function invokes — runs. -/
theorem C10_subscriber_throw_no_close (s : Session) (hdr : RespHeaders)
    (chunks : List String) (handler : Nat → HandlerOutcome) (e : Err)
    (items : List Json)
    (hstate : s.state = .ready) (hpr : s.promise = .pending)
    (hjson : s.isJsonMode = true) (hlive : s.live = .longPoll)
    (hstop : s.stopAfterUpToDate = false) (hutd : s.upToDate = false)
    (hfr : s.firstResponse = some { headers := hdr, body := some chunks })
    (hparse : parseJsonChunk (concatChunks chunks) = .ok items)
    (hh : handler 0 = .throws e) :
    ∃ s', subscribeJsonMethod handler false 1 s = .ok (s', some (.error e)) ∧
      s'.state = .consuming ∧ s'.promise = .pending ∧
      (cancelSession s').state = .closed ∧
      (cancelSession s').promise = .resolved := by
  obtain ⟨url, ct, live, so, off, cur, utd, st, ijm, fr, ab, pr, saut, fn, fc, hs, sn, sc, ss⟩ := s
  dsimp only at hstate hpr hjson hlive hstop hutd hfr
  subst hstate hpr hjson hlive hstop hutd hfr
  refine ⟨⟨url, ct, .longPoll, so, off, cur, false, .consuming, true, none, ab,
    .pending, false, fn, fc, hs, sn, sc, ss⟩, ?_, rfl, rfl, rfl, rfl⟩
  by_cases hlen : (concatChunks chunks).length > 0
  · simp [subscribeJsonMethod, ensureJsonMode, createByteStream, markConsuming,
      subscribeLoop, readStep, pull, shouldContinueLive, emptyReader, applyEv,
      hlen, hparse, hh,
      show (MLiveMode.longPoll == MLiveMode.off) = false from rfl,
      show (MLiveMode.longPoll == MLiveMode.sse) = false from rfl]
  · simp [subscribeJsonMethod, ensureJsonMode, createByteStream, markConsuming,
      subscribeLoop, readStep, pull, shouldContinueLive, emptyReader, applyEv,
      hlen, hh,
      show (MLiveMode.longPoll == MLiveMode.off) = false from rfl,
      show (MLiveMode.longPoll == MLiveMode.sse) = false from rfl]

/-- C10 witness: a concrete live session whose handler throws on the first
batch — the loop rethrows, the session stays `Consuming` with the promise
pending, and a subsequent cancel closes it cleanly. -/
theorem C10_subscriber_throw_no_close_witness :
    ∃ s', subscribeJsonMethod throwingHandler false 1 liveSession =
        .ok (s', some (.error netErr)) ∧
      s'.state = .consuming ∧ s'.promise = .pending ∧
      (cancelSession s').state = .closed ∧
      (cancelSession s').promise = .resolved :=
  C10_subscriber_throw_no_close liveSession
    { offsetH := some "5", cursorH := some "c5", upToDateH := true }
    ["[1]"] throwingHandler netErr [Json.num "1"]
    rfl rfl rfl rfl rfl rfl rfl rfl rfl
